import Mathlib

/-!
Shallow embedding of the core client-request pipeline of the
beeper-go-sdk repository: the typed error taxonomy and classifier
(`errors.go`, `handleErrorResponse` in the client file), the retry engine
(`RetryLogic` in `internal`), the query encoder (`StructToQueryParams`,
`fieldValueToString` in `internal`), the pagination iterator
(`Iterator` in `internal`), and client construction (`New`,
`ClientConfig`, the `With*` options).

Conventions of the embedding:
* Go errors are values of the inductive `GoError`; a Go function
  returning `error` returns `Option GoError` (`none` = nil) or
  `Except GoError α`.
* Durations are integer nanosecond counts, the representation of Go's
  `time.Duration` (an int64 of nanoseconds).
* A Go `context.Context` is modelled by its cancellation state, which is
  constant over one call (`Context.cancelled`), together with the value
  `ctx.Err()` would return once cancelled (`Context.err`); real-time
  cancellation during a backoff sleep is outside the model.
* The network is modelled as a scripted collaborator: a function from the
  number of previously issued requests to the response of the next one.
* Mutation of iterator state becomes explicit state passing: each
  operation returns the value produced, the new iterator state, and the
  updated count of network calls issued so far.
-/

namespace Beeper

/-- Fields shared by all API error kinds (`APIError` in errors.go):
numeric HTTP status, human message, optional machine code, optional
string-to-string details mapping. -/
structure APIError where
  status : Nat
  message : String
  code : String
  details : List (String × String)
deriving DecidableEq, Repr

/-- The closed error taxonomy of errors.go, plus the two synthetic wrapping
errors produced by `fmt.Errorf("...: %w", err)` in `RetryLogic.Do`
("request failed after N attempts") and `Iterator.fetchNextPage`
("failed to fetch page"), and the error a cancelled context's `Err()`
returns. Each Go error struct embedding `APIError` becomes one
constructor carrying its `APIError` fields. -/
inductive GoError where
  | beeperDesktopError (message : String)
  | apiError (e : APIError)
  | apiConnectionError (message : String)
  | apiConnectionTimeoutError (message : String)
  | badRequestError (e : APIError)
  | authenticationError (e : APIError)
  | permissionDeniedError (e : APIError)
  | notFoundError (e : APIError)
  | conflictError (e : APIError)
  | unprocessableEntityError (e : APIError)
  | rateLimitError (e : APIError)
  | internalServerError (e : APIError)
  | contextErr (message : String)
  | wrapAttempts (attempts : Nat) (inner : GoError)
  | wrapAttemptsNil (attempts : Nat)
  | fetchPageError (inner : GoError)
deriving DecidableEq, Repr

/-- Embeds the status-code switch of `handleErrorResponse`
(client file, lines 289-370), applied after the JSON error envelope has
been decoded into `(message, code, details)`: statuses 400, 401, 403,
404, 409, 422, 429 map to their dedicated error kinds, any status >= 500
maps to `InternalServerError`, and every other status yields the generic
`APIError`. -/
def handleErrorResponse (statusCode : Nat) (message code : String)
    (details : List (String × String)) : GoError :=
  let e : APIError := ⟨statusCode, message, code, details⟩
  if statusCode = 400 then .badRequestError e
  else if statusCode = 401 then .authenticationError e
  else if statusCode = 403 then .permissionDeniedError e
  else if statusCode = 404 then .notFoundError e
  else if statusCode = 409 then .conflictError e
  else if statusCode = 422 then .unprocessableEntityError e
  else if statusCode = 429 then .rateLimitError e
  else if statusCode ≥ 500 then .internalServerError e
  else .apiError e

/-- Embeds `IsRetryableError` of errors.go: the type switch returns true
for connection and connection-timeout errors, Conflict (409), RateLimit
(429) and InternalServerError kinds, and for a generic `APIError` exactly
when its status is 408 or at least 500; false for everything else. -/
def IsRetryableError (err : GoError) : Bool :=
  match err with
  | .apiConnectionError _ => true
  | .apiConnectionTimeoutError _ => true
  | .conflictError _ => true
  | .rateLimitError _ => true
  | .internalServerError _ => true
  | .apiError e => e.status == 408 || e.status ≥ 500
  | _ => false

/-- Embeds `isRetryableError` of internal/pagination.go (lines 215-223):
despite its comment describing connection errors and statuses
408/409/429/5xx as retryable, the body unconditionally returns false. -/
def isRetryableError (err : GoError) : Bool :=
  false

/-- Embeds the `RetryLogic` struct of internal/pagination.go: maximum
retry count and the base/maximum backoff delays, in nanoseconds (the
representation of Go's `time.Duration`). -/
structure RetryLogic where
  maxRetries : Nat
  baseDelay : Nat
  maxDelay : Nat
deriving DecidableEq, Repr

/-- Embeds `NewRetryLogic`: base delay `250 * time.Millisecond`
(250000000 ns), maximum delay `10 * time.Second` (10000000000 ns). -/
def NewRetryLogic (maxRetries : Nat) : RetryLogic :=
  { maxRetries := maxRetries, baseDelay := 250000000, maxDelay := 10000000000 }

/-- The largest int64 value, the range bound of Go's `time.Duration`. -/
def maxInt64 : Nat := 2 ^ 63 - 1

/-- Models the `time.Duration(...)` conversion of the float64 product in
`calculateDelay`. The product `float64(250ms) * 2^attempt` is an integer
real, exactly representable in float64 throughout the int64 range, so
whenever it fits in int64 the conversion yields exactly that integer.
When it does not fit, the Go specification makes the conversion result
implementation-specific; that choice is the explicit `overflow`
parameter (amd64 hardware yields the minimum int64, arm64 saturates to
the maximum int64). -/
def durationOfProduct (overflow : Nat → Int) (x : Nat) : Int :=
  if x ≤ maxInt64 then (x : Int) else overflow x

/-- Embeds `RetryLogic.calculateDelay` (internal/pagination.go lines
206-212): `time.Duration(float64(r.baseDelay) * math.Pow(2,
float64(attempt)))`, capped at `maxDelay` when it exceeds it. The
float64→int64 step is `durationOfProduct`, parameterised by the
implementation-specific out-of-range conversion behavior. -/
def RetryLogic.calculateDelay (r : RetryLogic) (overflow : Nat → Int)
    (attempt : Nat) : Int :=
  let delay := durationOfProduct overflow (r.baseDelay * 2 ^ attempt)
  if delay > (r.maxDelay : Int) then (r.maxDelay : Int) else delay

/-- The out-of-range float64→int64 conversion behavior of amd64 hardware
(CVTTSD2SI): every unrepresentable value converts to the minimum
int64. -/
def amd64Overflow : Nat → Int := fun _ => -(2 ^ 63)

/-- A Go context, modelled by its (constant) cancellation state and the
error `ctx.Err()` reports when cancelled. -/
structure Context where
  cancelled : Bool
  err : GoError
deriving DecidableEq, Repr

/-- Outcome of one `RetryLogic.Do` call: the returned error (`none` for
success) together with how many times the wrapped operation was
invoked. -/
structure DoOutcome where
  result : Option GoError
  invocations : Nat
deriving DecidableEq, Repr

/-- Embeds the `for attempt := 0; attempt <= r.maxRetries; attempt++` loop
body of `RetryLogic.Do` (lines 172-200): check cancellation, invoke the
operation, return on success, return a non-retryable error unchanged,
otherwise record it and continue (the inter-attempt sleep only affects
timing and, with a constant cancellation state, its cancellation branch
is unreachable when the top-of-loop check passed). `remaining` counts the
loop iterations left, starting from `maxRetries + 1`; exhausting them
reaches line 202's wrapping error. The operation is a function of the
number of invocations made so far, so that each invocation's result can
differ. -/
def RetryLogic.doLoop (r : RetryLogic) (ctx : Context)
    (fn : Nat → Option GoError) (invoked : Nat) (lastErr : Option GoError) :
    Nat → DoOutcome
  | 0 =>
    ⟨some (match lastErr with
           | some e => .wrapAttempts (r.maxRetries + 1) e
           | none => .wrapAttemptsNil (r.maxRetries + 1)), invoked⟩
  | remaining + 1 =>
    if ctx.cancelled then ⟨some ctx.err, invoked⟩
    else
      match fn invoked with
      | none => ⟨none, invoked + 1⟩
      | some e =>
        if isRetryableError e then
          r.doLoop ctx fn (invoked + 1) (some e) remaining
        else ⟨some e, invoked + 1⟩

/-- Embeds `RetryLogic.Do` (internal/pagination.go lines 169-203). -/
def RetryLogic.Do (r : RetryLogic) (ctx : Context)
    (fn : Nat → Option GoError) : DoOutcome :=
  r.doLoop ctx fn 0 none (r.maxRetries + 1)

/-- Runtime values a parameter bag can hold, mirroring the reflect kinds
that `StructToQueryParams` and `fieldValueToString` distinguish for this
SDK's parameter types: strings, signed integers, booleans, slices,
pointers (possibly nil), interface-wrapped values (possibly nil), and
string-keyed maps. A value stored in an `interface{}` — as every value of
the `map[string]interface{}` bags this SDK passes through
`DoRequestWithQuery` and the iterators — has reflect kind Interface and
is modelled as `.iface`; `fieldValueToString` has no Interface case and
never unwraps one. A nil slice or map encodes exactly like an empty one
(no output), so the model does not distinguish them; the float and
timestamp kinds, whose renderings are never empty strings, do not occur
in the parameter bags in scope. -/
inductive GoValue where
  | str (s : String)
  | int (n : Int)
  | bool (b : Bool)
  | slice (elems : List GoValue)
  | ptr (v : Option GoValue)
  | iface (v : Option GoValue)
  | mapv (entries : List (String × GoValue))

mutual

/-- Embeds `fieldValueToString` (internal/pagination.go lines 370-418):
nil pointers render as the empty string, one level of pointer is
dereferenced (only reflect kind Ptr is dereferenced — an Interface-kind
value is not), then the kind switch renders strings, integers (base 10)
and booleans, joins slice elements with commas (empty renders included),
and returns the empty string in the default case. -/
def fieldValueToString : GoValue → String
  | .ptr none => ""
  | .ptr (some v) => kindValueToString v
  | .str s => kindValueToString (.str s)
  | .int n => kindValueToString (.int n)
  | .bool b => kindValueToString (.bool b)
  | .slice elems => kindValueToString (.slice elems)
  | .iface o => kindValueToString (.iface o)
  | .mapv entries => kindValueToString (.mapv entries)

/-- The kind switch of `fieldValueToString`, applied after the pointer
dereference. The default case covers maps, a pointer remaining after the
dereference, and reflect kind Interface: the source only probes the
default-case value for a `String() string` method or `time.Time`, and the
dynamic kinds modelled here (strings, ints, bools, slices, pointers,
maps) are none of those, so an interface-wrapped value renders as the
empty string. -/
def kindValueToString : GoValue → String
  | .str s => s
  | .int n => toString n
  | .bool b => if b then "true" else "false"
  | .slice elems =>
    if elems.isEmpty then "" else sliceElemsToString elems
  | .ptr _ => ""
  | .iface _ => ""
  | .mapv _ => ""

/-- The slice loop of `fieldValueToString`: renders each element with
`fieldValueToString` and joins with commas, keeping empty renders. -/
def sliceElemsToString : List GoValue → String
  | [] => ""
  | [x] => fieldValueToString x
  | x :: y :: rest => fieldValueToString x ++ "," ++ sliceElemsToString (y :: rest)

end

/-- Embeds `strings.Join(values, ",")` as used by the slice branch of the
struct mode of `StructToQueryParams` (line 330). -/
def commaJoin : List String → String
  | [] => ""
  | [x] => x
  | x :: y :: rest => x ++ "," ++ commaJoin (y :: rest)

/-- Embeds the json-tag parsing loop of `StructToQueryParams` (lines
292-301): the query key is the tag up to but excluding its first comma
(json tags are ASCII, so the byte slice `tag[:idx]` is the character
slice). -/
def tagQueryName (tag : String) : String :=
  String.mk (tag.data.takeWhile (fun ch => ch ≠ ','))

/-- Embeds the map mode of `StructToQueryParams` (lines 251-270): each
entry whose value is a nil pointer or nil interface is skipped (the
source's IsNil switch also lists nil maps and slices, modelled here as
empty ones with the same null rendering), every other value is rendered
with `fieldValueToString`, and a pair is emitted only when the rendering
is non-empty. For the `map[string]interface{}` bags this repository
passes, every value is interface-wrapped and renders empty, so nothing is
emitted. The `url.Values` multimap is modelled as the emitted key-value
sequence. -/
def mapEntryParams : List (String × GoValue) → List (String × String)
  | [] => []
  | (keyStr, value) :: rest =>
    match value with
    | .ptr none => mapEntryParams rest
    | .iface none => mapEntryParams rest
    | _ =>
      let valueStr := fieldValueToString value
      if valueStr = "" then mapEntryParams rest
      else (keyStr, valueStr) :: mapEntryParams rest

/-- Embeds the nested-map branch of the struct mode of
`StructToQueryParams` (lines 336-357): entries flatten to dot-notation
keys `name.subKey`, skipping nil pointer and nil interface values and
empty renderings. -/
def mapFieldParams (name : String) : List (String × GoValue) → List (String × String)
  | [] => []
  | (subKey, subValue) :: rest =>
    match subValue with
    | .ptr none => mapFieldParams name rest
    | .iface none => mapFieldParams name rest
    | _ =>
      let subValueStr := fieldValueToString subValue
      if subValueStr = "" then mapFieldParams name rest
      else (name ++ "." ++ subKey, subValueStr) :: mapFieldParams name rest

/-- Embeds the struct mode of `StructToQueryParams` (lines 276-364).
A struct is modelled as its exported fields' (json tag, value) pairs
(fields failing `CanInterface` never reach the encoder in the model).
Per field: empty or `-` tags are skipped; the query key is the tag up to
the first comma; a nil-pointer field is skipped; after one pointer
dereference, slices encode as one comma-joined value (dropping elements
whose rendering is empty, and emitting nothing when none remain), maps
flatten via dot notation, and any other kind — including an
Interface-kind field, which is not dereferenced — emits its
`fieldValueToString` rendering of the original field value when that
rendering is non-empty. -/
def structFieldParams : List (String × GoValue) → List (String × String)
  | [] => []
  | (tag, field) :: rest =>
    if tag = "" ∨ tag = "-" then structFieldParams rest
    else
      let name := tagQueryName tag
      match field with
      | .ptr none => structFieldParams rest
      | _ =>
        let fieldValue := match field with
          | .ptr (some v) => v
          | v => v
        match fieldValue with
        | .slice elems =>
          if elems.length = 0 then structFieldParams rest
          else
            let values := (elems.map fieldValueToString).filter (fun s => s ≠ "")
            if values.length > 0 then (name, commaJoin values) :: structFieldParams rest
            else structFieldParams rest
        | .mapv entries => mapFieldParams name entries ++ structFieldParams rest
        | _ =>
          let value := fieldValueToString field
          if value = "" then structFieldParams rest
          else (name, value) :: structFieldParams rest

/-- A value passed to `StructToQueryParams` through its `interface{}`
parameter: a (possibly nil) pointer, a string-keyed map, a struct (its
exported fields as (json tag, value) pairs), or any other kind. -/
inductive GoParam where
  | ptrNilParam
  | ptrParam (v : GoParam)
  | mapParam (entries : List (String × GoValue))
  | structParam (fields : List (String × GoValue))
  | otherParam

/-- Embeds `StructToQueryParams` (internal/pagination.go lines 236-367):
nil top-level pointers yield no parameters, a pointer level is
dereferenced, maps use the map mode, structs the struct mode, and any
other kind yields no parameters. -/
def StructToQueryParams : GoParam → List (String × String)
  | .ptrNilParam => []
  | .ptrParam v => StructToQueryParams v
  | .mapParam entries => mapEntryParams entries
  | .structParam fields => structFieldParams fields
  | .otherParam => []

/-- Embeds the indexed-bracket query loop written by hand in the resource
layer (`Messages.Search`: `for idx, id := range params.AccountIDs {
query.Add("accountIDs["+strconv.Itoa(idx)+"]", id) }`), generalised over
the query field name. -/
def indexedBracketParams (name : String) (ids : List String) : List (String × String) :=
  ((List.range ids.length).zip ids).map
    (fun p => (name ++ "[" ++ toString p.1 ++ "]", p.2))

/-- Embeds `PaginationInfo` (internal/pagination.go lines 15-20). -/
structure PaginationInfo where
  cursor : Option String
  limit : Option Int
  direction : Option String
  hasMore : Bool
deriving DecidableEq, Repr

/-- Embeds the generic paginated-response envelope `Cursor[T]`
(internal/pagination.go lines 9-12): the page's items plus optional
pagination metadata. -/
structure Cursor (T : Type) where
  items : List T
  pagination : Option PaginationInfo
deriving DecidableEq, Repr

/-- Embeds the `Iterator[T]` state (internal/pagination.go lines 23-33).
The `client` reference is passed explicitly to each operation instead of
being stored, so that the scripted network model stays outside the
state. -/
structure Iterator (T : Type) where
  path : String
  params : List (String × GoValue)
  cursor : Option String
  limit : Option Int
  direction : Option String
  hasMore : Bool
  currentIdx : Nat
  currentPage : List T

/-- The network collaborator behind the `RequestClient` interface,
scripted: given the number of previously issued requests and the merged
query parameters of this request, produce the decoded `Cursor[T]`
response or the error `DoRequestWithQuery` returns. -/
def RequestClient (T : Type) := Nat → List (String × GoValue) → Except GoError (Cursor T)

/-- Looks a key up in the modelled `map[string]interface{}` parameter
bag. -/
def lookupParam (params : List (String × GoValue)) (key : String) : Option GoValue :=
  (params.find? (fun p => p.1 == key)).map Prod.snd

/-- Embeds Go map assignment `params[key] = v` on the modelled bag:
replaces the existing binding or appends a new one. -/
def setParam : List (String × GoValue) → String → GoValue → List (String × GoValue)
  | [], key, v => [(key, v)]
  | (k, w) :: rest, key, v =>
    if k = key then (k, v) :: rest else (k, w) :: setParam rest key v

/-- Embeds `NewIterator` (internal/pagination.go lines 41-55): the
`limit`, `direction` and `cursor` entries of the parameter bag are read
with defaulting type assertions (zero, empty string), and the iterator
starts with pointers to those values (hence all three present), an empty
page buffer, and `hasMore` optimistically true. -/
def NewIterator (T : Type) (path : String) (params : List (String × GoValue)) :
    Iterator T :=
  let limit : Int := match lookupParam params "limit" with
    | some (.int n) => n
    | _ => 0
  let direction : String := match lookupParam params "direction" with
    | some (.str s) => s
    | _ => ""
  let cursor : String := match lookupParam params "cursor" with
    | some (.str s) => s
    | _ => ""
  { path := path
    params := params
    cursor := some cursor
    limit := some limit
    direction := some direction
    hasMore := true
    currentIdx := 0
    currentPage := [] }

variable {T : Type}

/-- Embeds `Iterator.fetchNextPage` (internal/pagination.go lines
92-124): copy the base parameters, merge in the current cursor, limit and
direction when present and non-zero, issue the request, and on success
install the page buffer at index zero and take over the response's
pagination metadata — or clear `hasMore` when the response carries
none. A request error is wrapped as "failed to fetch page" and the state
other than the call count is left unchanged. -/
def Iterator.fetchNextPage (it : Iterator T) (client : RequestClient T) (calls : Nat) :
    Option GoError × Iterator T × Nat :=
  let params := it.params
  let params := match it.cursor with
    | some c => if c ≠ "" then setParam params "cursor" (.str c) else params
    | none => params
  let params := match it.limit with
    | some l => if l > 0 then setParam params "limit" (.int l) else params
    | none => params
  let params := match it.direction with
    | some d => if d ≠ "" then setParam params "direction" (.str d) else params
    | none => params
  match client calls params with
  | .error e => (some (.fetchPageError e), it, calls + 1)
  | .ok response =>
    let it := { it with currentPage := response.items, currentIdx := 0 }
    match response.pagination with
    | some p =>
      (none, { it with cursor := p.cursor, hasMore := p.hasMore }, calls + 1)
    | none =>
      (none, { it with hasMore := false }, calls + 1)

/-- Embeds `Iterator.Next` (internal/pagination.go lines 58-84): return
the next buffered item if any; report "no item" (`ok none`) when no more
pages; otherwise fetch a page and return its first item, or "no item"
when the fetched page is empty. -/
def Iterator.Next (it : Iterator T) (client : RequestClient T) (calls : Nat) :
    Except GoError (Option T) × Iterator T × Nat :=
  if h : it.currentIdx < it.currentPage.length then
    (.ok (some (it.currentPage.get ⟨it.currentIdx, h⟩)),
     { it with currentIdx := it.currentIdx + 1 }, calls)
  else if !it.hasMore then
    (.ok none, it, calls)
  else
    match it.fetchNextPage client calls with
    | (some e, it2, calls2) => (.error e, it2, calls2)
    | (none, it2, calls2) =>
      match it2.currentPage with
      | [] => (.ok none, it2, calls2)
      | x :: _ => (.ok (some x), { it2 with currentIdx := 1 }, calls2)

/-- Embeds `Iterator.HasNext` (internal/pagination.go lines 87-89). -/
def Iterator.HasNext (it : Iterator T) : Bool :=
  decide (it.currentIdx < it.currentPage.length) || it.hasMore

/-- Embeds the loop of `Iterator.ToSlice` (internal/pagination.go lines
127-142): while `HasNext`, call `Next`; an error is returned with the
partial result discarded; a "no item" result breaks the loop; otherwise
the item is appended. The Go loop is unbounded, so the embedding spends
one unit of `fuel` per iteration and returns `none` on exhaustion; any
result reached with some fuel is the loop's result (it is stable under
giving more fuel). -/
def Iterator.toSliceAux (client : RequestClient T) :
    Nat → Iterator T → Nat → List T →
    Option (Except GoError (List T) × Iterator T × Nat)
  | 0, _, _, _ => none
  | fuel + 1, it, calls, acc =>
    if it.HasNext then
      match it.Next client calls with
      | (.error e, it2, calls2) => some (.error e, it2, calls2)
      | (.ok none, it2, calls2) => some (.ok acc, it2, calls2)
      | (.ok (some x), it2, calls2) =>
        Iterator.toSliceAux client fuel it2 calls2 (acc ++ [x])
    else some (.ok acc, it, calls)

/-- Embeds `Iterator.ToSlice` (internal/pagination.go lines 127-142),
starting from an empty accumulator. -/
def Iterator.ToSlice (it : Iterator T) (client : RequestClient T) (fuel : Nat)
    (calls : Nat) : Option (Except GoError (List T) × Iterator T × Nat) :=
  Iterator.toSliceAux client fuel it calls []

/-- Modelled from the spec: the `Version` constant of the SDK lives in a
source file not present under src/; it only feeds the default user-agent
string `beeper-desktop-api-go/<Version>` and no claim depends on its
value. -/
def Version : String := "1.0.0"

/-- Embeds `getEnvWithDefault` (client file lines 374-380); `os.Getenv`
is modelled as a total function returning the empty string for unset
variables, exactly as in Go. -/
def getEnvWithDefault (env : String → String) (key defaultValue : String) : String :=
  let value := env key
  if value = "" then defaultValue else value

/-- Models the `*http.Client` transport handle: all the client
construction path does with it is either accept a caller-supplied one or
build a fresh one carrying the configured timeout. -/
structure HttpClient where
  timeout : Nat
deriving DecidableEq, Repr

/-- Embeds `ClientConfig` (resources file): access token, base URL,
timeout (nanoseconds, as `time.Duration`), max retries, user agent,
optional caller-supplied transport. -/
structure ClientConfig where
  AccessToken : String
  BaseURL : String
  Timeout : Nat
  MaxRetries : Nat
  UserAgent : String
  HTTPClient : Option HttpClient
deriving DecidableEq, Repr

/-- Embeds `ClientOption` (`func(*ClientConfig)`): a pure update of the
configuration. -/
def ClientOption := ClientConfig → ClientConfig

/-- Embeds `WithAccessToken`. -/
def WithAccessToken (token : String) : ClientOption :=
  fun c => { c with AccessToken := token }

/-- Embeds `WithBaseURL`. -/
def WithBaseURL (baseURL : String) : ClientOption :=
  fun c => { c with BaseURL := baseURL }

/-- Embeds `WithTimeout` (nanoseconds, as `time.Duration`). -/
def WithTimeout (timeout : Nat) : ClientOption :=
  fun c => { c with Timeout := timeout }

/-- Embeds `WithMaxRetries`. -/
def WithMaxRetries (maxRetries : Nat) : ClientOption :=
  fun c => { c with MaxRetries := maxRetries }

/-- Embeds `WithUserAgent`. -/
def WithUserAgent (userAgent : String) : ClientOption :=
  fun c => { c with UserAgent := userAgent }

/-- Embeds `WithHTTPClient`. -/
def WithHTTPClient (httpClient : HttpClient) : ClientOption :=
  fun c => { c with HTTPClient := some httpClient }

/-- Embeds the `BeeperDesktop` client struct (configuration fields,
transport and retry engine). The resource handles (`Accounts`, `App`,
`Chats`, `Contacts`, `Messages`, `Token`) each hold only a back-reference
to this client, so they carry no separate state in the model; they exist
exactly when a `BeeperDesktop` value exists. -/
structure BeeperDesktop where
  accessToken : String
  baseURL : String
  timeout : Nat
  maxRetries : Nat
  userAgent : String
  httpClient : HttpClient
  retryLogic : RetryLogic
deriving DecidableEq, Repr

/-- The default configuration built at the top of `New` (client file
lines 148-154): token from `BEEPER_ACCESS_TOKEN`, base URL from
`BEEPER_DESKTOP_BASE_URL` defaulting to `http://localhost:23373`,
timeout 30 s, max retries 2, versioned user agent, no caller
transport. -/
def defaultClientConfig (env : String → String) : ClientConfig :=
  { AccessToken := env "BEEPER_ACCESS_TOKEN"
    BaseURL := getEnvWithDefault env "BEEPER_DESKTOP_BASE_URL" "http://localhost:23373"
    Timeout := 30000000000
    MaxRetries := 2
    UserAgent := "beeper-desktop-api-go/" ++ Version
    HTTPClient := none }

/-- The configuration `New` resolves before validating: defaults, then
the options applied in call order (client file lines 156-158). -/
def resolveConfig (env : String → String) (opts : List ClientOption) : ClientConfig :=
  opts.foldl (fun c opt => opt c) (defaultClientConfig env)

/-- Embeds `New` (client file lines 147-200): resolve the configuration;
if the access token is empty, fail with the 401 `AuthenticationError`
before any transport, resource handle or network activity; otherwise
normalise the base URL to end in `/`, take or build the transport, and
assemble the client with a fresh retry engine. -/
def New (env : String → String) (opts : List ClientOption) :
    Except GoError BeeperDesktop :=
  let config := resolveConfig env opts
  if config.AccessToken = "" then
    .error (.authenticationError ⟨401, "access token is required", "", []⟩)
  else
    let baseURL :=
      if config.BaseURL.endsWith "/" then config.BaseURL else config.BaseURL ++ "/"
    let httpClient := match config.HTTPClient with
      | some hc => hc
      | none => { timeout := config.Timeout }
    .ok { accessToken := config.AccessToken
          baseURL := baseURL
          timeout := config.Timeout
          maxRetries := config.MaxRetries
          userAgent := config.UserAgent
          httpClient := httpClient
          retryLogic := NewRetryLogic config.MaxRetries }

/-! Theorems about the embedded pipeline. -/

/-- C1: the claim says that for an operation failing on every invocation
with a retryable error (per the taxonomy: connection errors, 409, 429,
5xx, generic 408) under a never-cancelled context, `RetryLogic.Do`
invokes it `maxRetries + 1` times and returns a wrapping error mentioning
that count. The code does not: `internal.isRetryableError` returns false
for every error — contradicting its own comment, which lists those
classes as retryable, and leaving `IsRetryableError` of errors.go unused
by the retry engine — so `Do` stops after a single invocation and returns
the error unchanged. Evaluated here at maxRetries = 2 with an operation
always failing with a 429 RateLimitError: one invocation, no wrap, even
though the public classifier marks that error retryable. -/
theorem retry_do_429_stops_after_one_attempt :
    (NewRetryLogic 2).Do ⟨false, .contextErr "context canceled"⟩
        (fun _ => some (.rateLimitError ⟨429, "rate limited", "", []⟩)) =
      ⟨some (.rateLimitError ⟨429, "rate limited", "", []⟩), 1⟩ ∧
    IsRetryableError (.rateLimitError ⟨429, "rate limited", "", []⟩) = true ∧
    isRetryableError (.rateLimitError ⟨429, "rate limited", "", []⟩) = false :=
  ⟨rfl, rfl, rfl⟩

/-- C3: for every status in {400, 401, 403, 404, 409, 422, 429, 500, 502,
503} and every decoded (message, code, details), the classifier produces
exactly the taxonomy's kind for that status, and `IsRetryableError` on
the produced error is true exactly for 409, 429 and the 5xx statuses. -/
theorem classify_matches_taxonomy_table (m c : String) (d : List (String × String)) :
    (handleErrorResponse 400 m c d = .badRequestError ⟨400, m, c, d⟩ ∧
      IsRetryableError (handleErrorResponse 400 m c d) = false) ∧
    (handleErrorResponse 401 m c d = .authenticationError ⟨401, m, c, d⟩ ∧
      IsRetryableError (handleErrorResponse 401 m c d) = false) ∧
    (handleErrorResponse 403 m c d = .permissionDeniedError ⟨403, m, c, d⟩ ∧
      IsRetryableError (handleErrorResponse 403 m c d) = false) ∧
    (handleErrorResponse 404 m c d = .notFoundError ⟨404, m, c, d⟩ ∧
      IsRetryableError (handleErrorResponse 404 m c d) = false) ∧
    (handleErrorResponse 409 m c d = .conflictError ⟨409, m, c, d⟩ ∧
      IsRetryableError (handleErrorResponse 409 m c d) = true) ∧
    (handleErrorResponse 422 m c d = .unprocessableEntityError ⟨422, m, c, d⟩ ∧
      IsRetryableError (handleErrorResponse 422 m c d) = false) ∧
    (handleErrorResponse 429 m c d = .rateLimitError ⟨429, m, c, d⟩ ∧
      IsRetryableError (handleErrorResponse 429 m c d) = true) ∧
    (handleErrorResponse 500 m c d = .internalServerError ⟨500, m, c, d⟩ ∧
      IsRetryableError (handleErrorResponse 500 m c d) = true) ∧
    (handleErrorResponse 502 m c d = .internalServerError ⟨502, m, c, d⟩ ∧
      IsRetryableError (handleErrorResponse 502 m c d) = true) ∧
    (handleErrorResponse 503 m c d = .internalServerError ⟨503, m, c, d⟩ ∧
      IsRetryableError (handleErrorResponse 503 m c d) = true) :=
  ⟨⟨rfl, rfl⟩, ⟨rfl, rfl⟩, ⟨rfl, rfl⟩, ⟨rfl, rfl⟩, ⟨rfl, rfl⟩,
   ⟨rfl, rfl⟩, ⟨rfl, rfl⟩, ⟨rfl, rfl⟩, ⟨rfl, rfl⟩, ⟨rfl, rfl⟩⟩

/-- C4 counterexample: the claim asserts the min(250 ms · 2^i, 10000 ms)
delay for every retry index i, but at i = 36 the product 250 ms · 2^36
(about 1.7 · 10^19 ns) exceeds the int64 range of `time.Duration`, so the
source's float64→int64 conversion is implementation-specific; under the
amd64 behavior the computed delay is the negative minimum int64, not the
10000 ms cap the formula requires. (A saturating implementation such as
arm64 happens to produce the cap; the code guarantees nothing.) -/
theorem calculateDelay_overflow_at_36 :
    (NewRetryLogic 2).calculateDelay amd64Overflow 36 = -(2 ^ 63) ∧
    ((min (250000000 * 2 ^ 36) 10000000000 : Nat) : Int) = 10000000000 ∧
    (NewRetryLogic 2).calculateDelay amd64Overflow 36 ≠
      ((min (250000000 * 2 ^ 36) 10000000000 : Nat) : Int) := by
  refine ⟨?_, ?_, ?_⟩ <;> decide

/-- C4 amended: for every retry index i ≤ 35 — exactly those whose
product 250 ms · 2^i is representable in the int64 nanoseconds of
`time.Duration`, where the source's float64 computation is exact on every
conforming implementation — the backoff delay equals
min(250 ms · 2^i, 10000 ms) in nanoseconds, independently of the
out-of-range conversion behavior; in particular for i = 0..6 the delays
are 250, 500, 1000, 2000, 4000, 8000 and 10000 milliseconds. -/
theorem calculateDelay_formula_bounded (m : Nat) (overflow : Nat → Int)
    (i : Nat) (hi : i ≤ 35) :
    (NewRetryLogic m).calculateDelay overflow i =
      ((min (250000000 * 2 ^ i) 10000000000 : Nat) : Int) ∧
    ((NewRetryLogic m).calculateDelay overflow 0 = 250000000 ∧
      (NewRetryLogic m).calculateDelay overflow 1 = 500000000 ∧
      (NewRetryLogic m).calculateDelay overflow 2 = 1000000000 ∧
      (NewRetryLogic m).calculateDelay overflow 3 = 2000000000 ∧
      (NewRetryLogic m).calculateDelay overflow 4 = 4000000000 ∧
      (NewRetryLogic m).calculateDelay overflow 5 = 8000000000 ∧
      (NewRetryLogic m).calculateDelay overflow 6 = 10000000000) := by
  have hgen : ∀ j, j ≤ 35 →
      (NewRetryLogic m).calculateDelay overflow j =
        ((min (250000000 * 2 ^ j) 10000000000 : Nat) : Int) := by
    intro j hj
    have hfit : 250000000 * 2 ^ j ≤ maxInt64 := by
      have h1 : (2 : Nat) ^ j ≤ 2 ^ 35 := Nat.pow_le_pow_right (by norm_num) hj
      have h2 : 250000000 * 2 ^ j ≤ 250000000 * 2 ^ 35 :=
        Nat.mul_le_mul_left _ h1
      have h3 : 250000000 * 2 ^ 35 ≤ maxInt64 := by decide
      omega
    simp only [NewRetryLogic, RetryLogic.calculateDelay, durationOfProduct]
    rw [if_pos hfit, Nat.min_def]
    split <;> split <;> omega
  exact ⟨hgen i hi,
    by rw [hgen 0 (by norm_num)]; decide,
    by rw [hgen 1 (by norm_num)]; decide,
    by rw [hgen 2 (by norm_num)]; decide,
    by rw [hgen 3 (by norm_num)]; decide,
    by rw [hgen 4 (by norm_num)]; decide,
    by rw [hgen 5 (by norm_num)]; decide,
    by rw [hgen 6 (by norm_num)]; decide⟩

/-- Witness for the amended C4 at retry index 6, maxRetries 2, under the
amd64 conversion behavior. -/
theorem calculateDelay_formula_bounded_witness :
    (NewRetryLogic 2).calculateDelay amd64Overflow 6 =
      ((min (250000000 * 2 ^ 6) 10000000000 : Nat) : Int) :=
  (calculateDelay_formula_bounded 2 amd64Overflow 6 (by norm_num)).1

/-- C5: under a never-cancelled context, an operation whose first
invocation fails with a non-retryable error is invoked exactly once, and
`Do` returns that error unchanged (no "failed after N attempts" wrap). -/
theorem retry_do_nonretryable_returns_unchanged (r : RetryLogic) (ctx : Context)
    (fn : Nat → Option GoError) (e : GoError)
    (hctx : ctx.cancelled = false) (hfn : fn 0 = some e)
    (hnr : isRetryableError e = false) :
    r.Do ctx fn = ⟨some e, 1⟩ := by
  unfold RetryLogic.Do RetryLogic.doLoop
  simp [hctx, hfn, hnr]

/-- Witness for C5 at maxRetries = 2 and an operation failing with a 404
NotFoundError. -/
theorem retry_do_nonretryable_returns_unchanged_witness :
    (NewRetryLogic 2).Do ⟨false, .contextErr "context canceled"⟩
        (fun _ => some (.notFoundError ⟨404, "missing", "", []⟩)) =
      ⟨some (.notFoundError ⟨404, "missing", "", []⟩), 1⟩ :=
  retry_do_nonretryable_returns_unchanged (NewRetryLogic 2)
    ⟨false, .contextErr "context canceled"⟩
    (fun _ => some (.notFoundError ⟨404, "missing", "", []⟩))
    (.notFoundError ⟨404, "missing", "", []⟩) rfl rfl rfl

/-- C6: when the context is already cancelled before `Do` is called, `Do`
returns the context's cancellation error and the operation is invoked
zero times. -/
theorem retry_do_cancelled_no_invocation (r : RetryLogic) (ctx : Context)
    (fn : Nat → Option GoError) (hctx : ctx.cancelled = true) :
    r.Do ctx fn = ⟨some ctx.err, 0⟩ := by
  unfold RetryLogic.Do RetryLogic.doLoop
  simp [hctx]

/-- Witness for C6 at maxRetries = 2 with an always-failing operation. -/
theorem retry_do_cancelled_no_invocation_witness :
    (NewRetryLogic 2).Do ⟨true, .contextErr "context canceled"⟩
        (fun _ => some (.notFoundError ⟨404, "missing", "", []⟩)) =
      ⟨some (.contextErr "context canceled"), 0⟩ :=
  retry_do_cancelled_no_invocation (NewRetryLogic 2)
    ⟨true, .contextErr "context canceled"⟩
    (fun _ => some (.notFoundError ⟨404, "missing", "", []⟩)) rfl

/-- C7: whenever the resolved configuration's access token is empty, `New`
fails with the 401 `AuthenticationError`, returning before any client
value — hence before any transport or resource handle exists and before
any network activity (the construction path performs no network call at
all) — and `New` never succeeds with an empty token: a successful
construction carries the non-empty resolved token. -/
theorem new_fails_on_empty_token (env : String → String) (opts : List ClientOption) :
    ((resolveConfig env opts).AccessToken = "" →
      New env opts =
        .error (.authenticationError ⟨401, "access token is required", "", []⟩)) ∧
    (∀ client : BeeperDesktop, New env opts = .ok client →
      (resolveConfig env opts).AccessToken ≠ "" ∧
      client.accessToken = (resolveConfig env opts).AccessToken) := by
  constructor
  · intro h
    unfold New
    simp [h]
  · intro client hok
    unfold New at hok
    by_cases h : (resolveConfig env opts).AccessToken = ""
    · simp [h] at hok
    · refine ⟨h, ?_⟩
      simp [h] at hok
      exact (congrArg BeeperDesktop.accessToken hok).symm

/-- Witness for C7: with an empty environment and no options the resolved
token is empty and `New` fails with the 401 authentication error. -/
theorem new_fails_on_empty_token_witness :
    New (fun _ => "") [] =
      .error (.authenticationError ⟨401, "access token is required", "", []⟩) :=
  (new_fails_on_empty_token (fun _ => "") []).1 rfl

/-- A string of positive length is not the empty string. -/
theorem string_ne_empty_of_length_pos (s : String) (h : 0 < s.length) : s ≠ "" := by
  intro he
  subst he
  simp at h

/-- Joining a non-empty list of non-empty strings with commas yields a
non-empty string. -/
theorem commaJoin_ne_empty :
    ∀ (l : List String), (∀ s ∈ l, s ≠ "") → l ≠ [] → commaJoin l ≠ ""
  | [], _, h => absurd rfl h
  | [x], hall, _ => by simpa [commaJoin] using hall x (List.mem_singleton.mpr rfl)
  | x :: y :: rest, _, _ => by
    apply string_ne_empty_of_length_pos
    rw [commaJoin, String.length_append, String.length_append]
    have hc : String.length "," = 1 := rfl
    omega

/-- Members of a guarded emission `if s = "" then rest else (k, s) :: rest`
have non-empty values whenever the members of `rest` do. -/
theorem mem_emit_ne_empty {p : String × String} {k s : String}
    {rest : List (String × String)}
    (hrest : ∀ q ∈ rest, q.2 ≠ "")
    (hp : p ∈ if s = "" then rest else (k, s) :: rest) : p.2 ≠ "" := by
  by_cases hs : s = ""
  · rw [if_pos hs] at hp
    exact hrest p hp
  · rw [if_neg hs] at hp
    rcases List.mem_cons.mp hp with h | h
    · rw [h]
      exact hs
    · exact hrest p h

/-- Every pair emitted by the map mode of the encoder has a non-empty
value. -/
theorem mapEntryParams_values_ne_empty (entries : List (String × GoValue)) :
    ∀ p ∈ mapEntryParams entries, p.2 ≠ "" := by
  induction entries with
  | nil => intro p hp; simp [mapEntryParams] at hp
  | cons e rest ih =>
    obtain ⟨k, v⟩ := e
    intro p hp
    cases v with
    | str s => exact mem_emit_ne_empty ih (by simpa only [mapEntryParams] using hp)
    | int n => exact mem_emit_ne_empty ih (by simpa only [mapEntryParams] using hp)
    | bool b => exact mem_emit_ne_empty ih (by simpa only [mapEntryParams] using hp)
    | slice elems =>
      exact mem_emit_ne_empty ih (by simpa only [mapEntryParams] using hp)
    | mapv sub => exact mem_emit_ne_empty ih (by simpa only [mapEntryParams] using hp)
    | ptr o =>
      cases o with
      | none => exact ih p (by simpa only [mapEntryParams] using hp)
      | some w =>
        exact mem_emit_ne_empty ih (by simpa only [mapEntryParams] using hp)
    | iface o =>
      cases o with
      | none => exact ih p (by simpa only [mapEntryParams] using hp)
      | some w =>
        exact mem_emit_ne_empty ih (by simpa only [mapEntryParams] using hp)

/-- Every pair emitted by the dot-notation nested-map branch of the
struct mode has a non-empty value. -/
theorem mapFieldParams_values_ne_empty (name : String)
    (entries : List (String × GoValue)) :
    ∀ p ∈ mapFieldParams name entries, p.2 ≠ "" := by
  induction entries with
  | nil => intro p hp; simp [mapFieldParams] at hp
  | cons e rest ih =>
    obtain ⟨k, v⟩ := e
    intro p hp
    cases v with
    | str s => exact mem_emit_ne_empty ih (by simpa only [mapFieldParams] using hp)
    | int n => exact mem_emit_ne_empty ih (by simpa only [mapFieldParams] using hp)
    | bool b => exact mem_emit_ne_empty ih (by simpa only [mapFieldParams] using hp)
    | slice elems =>
      exact mem_emit_ne_empty ih (by simpa only [mapFieldParams] using hp)
    | mapv sub => exact mem_emit_ne_empty ih (by simpa only [mapFieldParams] using hp)
    | ptr o =>
      cases o with
      | none => exact ih p (by simpa only [mapFieldParams] using hp)
      | some w =>
        exact mem_emit_ne_empty ih (by simpa only [mapFieldParams] using hp)
    | iface o =>
      cases o with
      | none => exact ih p (by simpa only [mapFieldParams] using hp)
      | some w =>
        exact mem_emit_ne_empty ih (by simpa only [mapFieldParams] using hp)

/-- Every pair emitted by the struct mode of the encoder has a non-empty
value. -/
theorem structFieldParams_values_ne_empty (fields : List (String × GoValue)) :
    ∀ p ∈ structFieldParams fields, p.2 ≠ "" := by
  induction fields with
  | nil => intro p hp; simp [structFieldParams] at hp
  | cons f rest ih =>
    obtain ⟨tag, field⟩ := f
    intro p hp
    by_cases htag : tag = "" ∨ tag = "-"
    · simp only [structFieldParams, if_pos htag] at hp
      exact ih p hp
    · simp only [structFieldParams, if_neg htag] at hp
      have hslice : ∀ (elems : List GoValue),
          p ∈ (if elems.length = 0 then structFieldParams rest
               else
                 if ((elems.map fieldValueToString).filter (fun s => s ≠ "")).length > 0 then
                   (tagQueryName tag,
                     commaJoin ((elems.map fieldValueToString).filter (fun s => s ≠ ""))) ::
                     structFieldParams rest
                 else structFieldParams rest) →
          p.2 ≠ "" := by
        intro elems hmem
        by_cases hlen : elems.length = 0
        · rw [if_pos hlen] at hmem
          exact ih p hmem
        · rw [if_neg hlen] at hmem
          by_cases hvals :
              ((elems.map fieldValueToString).filter (fun s => s ≠ "")).length > 0
          · rw [if_pos hvals] at hmem
            rcases List.mem_cons.mp hmem with h | h
            · rw [h]
              apply commaJoin_ne_empty
              · intro s hs
                have := (List.mem_filter.mp hs).2
                simpa using this
              · intro hnil
                rw [hnil] at hvals
                simp at hvals
            · exact ih p h
          · rw [if_neg hvals] at hmem
            exact ih p hmem
      have hmapv : ∀ (entries : List (String × GoValue)),
          p ∈ mapFieldParams (tagQueryName tag) entries ++
              structFieldParams rest →
          p.2 ≠ "" := by
        intro entries hmem
        rcases List.mem_append.mp hmem with h | h
        · exact mapFieldParams_values_ne_empty _ entries p h
        · exact ih p h
      cases field with
      | str s => exact mem_emit_ne_empty ih hp
      | int n => exact mem_emit_ne_empty ih hp
      | bool b => exact mem_emit_ne_empty ih hp
      | slice elems => exact hslice elems hp
      | mapv entries => exact hmapv entries hp
      | iface o => exact mem_emit_ne_empty ih hp
      | ptr o =>
        cases o with
        | none => exact ih p hp
        | some w =>
          cases w with
          | str s => exact mem_emit_ne_empty ih hp
          | int n => exact mem_emit_ne_empty ih hp
          | bool b => exact mem_emit_ne_empty ih hp
          | slice elems => exact hslice elems hp
          | mapv entries => exact hmapv entries hp
          | ptr o2 => exact mem_emit_ne_empty ih hp
          | iface o2 => exact mem_emit_ne_empty ih hp

/-- C10: for every parameter bag, in map mode or struct mode, the query
encoder only emits a key when the rendered value is non-empty — a
non-pointer empty string field or map value is omitted — so the encoded
output never contains a key bound to the empty string. -/
theorem encoder_emits_no_empty_value :
    ∀ (param : GoParam), ∀ p ∈ StructToQueryParams param, p.2 ≠ ""
  | .ptrNilParam => by simp [StructToQueryParams]
  | .ptrParam v => by
    simpa only [StructToQueryParams] using encoder_emits_no_empty_value v
  | .mapParam entries => by
    simpa only [StructToQueryParams] using mapEntryParams_values_ne_empty entries
  | .structParam fields => by
    simpa only [StructToQueryParams] using structFieldParams_values_ne_empty fields
  | .otherParam => by simp [StructToQueryParams]

/-- Witness for C10: on the concrete struct bag with string fields
`a = "x"` and `b = ""`, the encoder emits only `a=x`, whose value is
non-empty; the non-pointer empty-string field is omitted. -/
theorem encoder_emits_no_empty_value_witness :
    StructToQueryParams (.structParam [("a", .str "x"), ("b", .str "")]) =
      [("a", "x")] ∧
    (("a", "x") : String × String).2 ≠ "" :=
  ⟨by
    have h1 : tagQueryName "a" = "a" := rfl
    have h2 : tagQueryName "b" = "b" := rfl
    simp [StructToQueryParams, structFieldParams, fieldValueToString,
      kindValueToString, h1, h2],
   encoder_emits_no_empty_value (.structParam [("a", .str "x"), ("b", .str "")])
      ("a", "x") (by
        have h1 : tagQueryName "a" = "a" := rfl
        have h2 : tagQueryName "b" = "b" := rfl
        simp [StructToQueryParams, structFieldParams, fieldValueToString,
          kindValueToString, h1, h2])⟩

/-- C2 counterexample: the core query encoder has no indexed-bracket mode
and no mode flag. Its struct mode renders the list field
`field = ["a", "b"]` solely as the comma-joined pair `field=a,b` and in
particular never produces an indexed-bracket key `field[0]`; its map
mode, applied to the repository's actual `map[string]interface{}` shape
(the list value interface-wrapped), emits nothing at all. The
indexed-bracket convention exists only as a hand-written loop in the
resource layer, outside the core encoder. -/
theorem encoder_has_no_bracket_mode :
    StructToQueryParams (.structParam [("field", .slice [.str "a", .str "b"])]) =
      [("field", "a,b")] ∧
    StructToQueryParams
        (.mapParam [("field", .iface (some (.slice [.str "a", .str "b"])))]) = [] ∧
    ("field[0]", "a") ∉
      StructToQueryParams (.structParam [("field", .slice [.str "a", .str "b"])]) := by
  have hname : tagQueryName "field" = "field" := rfl
  have h1 : StructToQueryParams
      (.structParam [("field", .slice [.str "a", .str "b"])]) = [("field", "a,b")] := by
    simp [StructToQueryParams, structFieldParams, fieldValueToString,
      kindValueToString, sliceElemsToString, commaJoin, hname]
  have h2 : StructToQueryParams
      (.mapParam [("field", .iface (some (.slice [.str "a", .str "b"])))]) = [] := by
    simp [StructToQueryParams, mapEntryParams, fieldValueToString, kindValueToString]
  refine ⟨h1, h2, ?_⟩
  rw [h1]
  simp

/-- C2 amended: for a list of non-empty strings bound to a field, the
core query encoder emits the single comma-joined pair `field=a,b`, and
only through its struct mode — its map mode, whose values in this
repository's `map[string]interface{}` bags are interface-wrapped, emits
nothing for the same list — while the indexed-bracket rendering
`field[0]=a&field[1]=b` is produced by the resource layer's hand-written
loop (`indexedBracketParams`), not by a flag or second entry point of the
core encoder. -/
theorem encoder_two_list_conventions (a b : String) (ha : a ≠ "") (hb : b ≠ "") :
    StructToQueryParams (.structParam [("field", .slice [.str a, .str b])]) =
      [("field", a ++ "," ++ b)] ∧
    StructToQueryParams
        (.mapParam [("field", .iface (some (.slice [.str a, .str b])))]) = [] ∧
    indexedBracketParams "field" [a, b] = [("field[0]", a), ("field[1]", b)] := by
  refine ⟨?_, ?_, ?_⟩
  · have hname : tagQueryName "field" = "field" := rfl
    simp [StructToQueryParams, structFieldParams, fieldValueToString,
      kindValueToString, commaJoin, List.filter, hname, ha, hb]
  · simp [StructToQueryParams, mapEntryParams, fieldValueToString, kindValueToString]
  · have h0 : toString (0 : Nat) = "0" := rfl
    have h1 : toString (1 : Nat) = "1" := rfl
    have hr : List.range 2 = [0, 1] := rfl
    simp [indexedBracketParams, hr, h0, h1]

/-- Witness for the amended C2 at the spec's example list `["a", "b"]`. -/
theorem encoder_two_list_conventions_witness :
    StructToQueryParams (.structParam [("field", .slice [.str "a", .str "b"])]) =
      [("field", "a" ++ "," ++ "b")] ∧
    StructToQueryParams
        (.mapParam [("field", .iface (some (.slice [.str "a", .str "b"])))]) = [] ∧
    indexedBracketParams "field" ["a", "b"] = [("field[0]", "a"), ("field[1]", "b")] :=
  encoder_two_list_conventions "a" "b" (by decide) (by decide)

/-- An iterator with no more pages and an exhausted buffer reports
`HasNext = false` and `Next` returns the "no item" sentinel without a
network call. -/
theorem exhausted_iterator_next {T : Type} (it : Iterator T)
    (client : RequestClient T) (calls : Nat)
    (h1 : it.hasMore = false) (h2 : it.currentPage.length ≤ it.currentIdx) :
    it.HasNext = false ∧ it.Next client calls = (.ok none, it, calls) := by
  constructor
  · simp [Iterator.HasNext, h1]
    omega
  · unfold Iterator.Next
    rw [dif_neg (by omega)]
    simp [h1]

/-- The result of the `ToSlice` loop is stable under extra fuel. -/
theorem toSliceAux_mono {T : Type} (client : RequestClient T) :
    ∀ (fuel fuel' : Nat) (it : Iterator T) (calls : Nat) (acc : List T)
      (r : Except GoError (List T) × Iterator T × Nat),
      fuel ≤ fuel' →
      Iterator.toSliceAux client fuel it calls acc = some r →
      Iterator.toSliceAux client fuel' it calls acc = some r := by
  intro fuel
  induction fuel with
  | zero =>
    intro fuel' it calls acc r _ h
    simp [Iterator.toSliceAux] at h
  | succ fuel ih =>
    intro fuel' it calls acc r hle h
    obtain ⟨fuel'', rfl⟩ : ∃ k, fuel' = k + 1 := ⟨fuel' - 1, by omega⟩
    rw [Iterator.toSliceAux] at h ⊢
    by_cases hhn : it.HasNext
    · rw [if_pos hhn] at h ⊢
      rcases hnx : it.Next client calls with ⟨res, it2, calls2⟩
      rw [hnx] at h
      cases res with
      | error e => exact h
      | ok o =>
        cases o with
        | none => exact h
        | some x => exact ih fuel'' it2 calls2 (acc ++ [x]) r (by omega) h
    · rw [if_neg hhn] at h ⊢
      exact h

/-- Draining the `ToSlice` loop over an iterator whose `hasMore` flag is
cleared returns the remaining buffered items, issues no network call, and
leaves an exhausted iterator. -/
theorem toSliceAux_drain {T : Type} (client : RequestClient T) :
    ∀ (fuel : Nat) (it : Iterator T) (calls : Nat) (acc : List T),
      it.hasMore = false →
      it.currentPage.length - it.currentIdx + 1 ≤ fuel →
      ∃ itF : Iterator T,
        Iterator.toSliceAux client fuel it calls acc =
          some (.ok (acc ++ it.currentPage.drop it.currentIdx), itF, calls) ∧
        itF.hasMore = false ∧
        itF.currentPage.length ≤ itF.currentIdx := by
  intro fuel
  induction fuel with
  | zero =>
    intro it calls acc _ hfuel
    omega
  | succ fuel ih =>
    intro it calls acc hmore hfuel
    rw [Iterator.toSliceAux]
    by_cases hidx : it.currentIdx < it.currentPage.length
    · have hhn : it.HasNext = true := by
        simp [Iterator.HasNext, hidx]
      rw [hhn, if_pos rfl]
      have hnext : it.Next client calls =
          (.ok (some (it.currentPage.get ⟨it.currentIdx, hidx⟩)),
           { it with currentIdx := it.currentIdx + 1 }, calls) := by
        unfold Iterator.Next
        rw [dif_pos hidx]
      rw [hnext]
      obtain ⟨itF, heq, h1, h2⟩ := ih { it with currentIdx := it.currentIdx + 1 }
        calls (acc ++ [it.currentPage.get ⟨it.currentIdx, hidx⟩]) hmore
        (by show it.currentPage.length - (it.currentIdx + 1) + 1 ≤ fuel; omega)
      refine ⟨itF, ?_, h1, h2⟩
      have hdrop : it.currentPage.drop it.currentIdx =
          it.currentPage.get ⟨it.currentIdx, hidx⟩ ::
            it.currentPage.drop (it.currentIdx + 1) := by
        rw [List.drop_eq_getElem_cons hidx]
        rfl
      have hres : Iterator.toSliceAux client fuel
          { it with currentIdx := it.currentIdx + 1 } calls
          (acc ++ [it.currentPage.get ⟨it.currentIdx, hidx⟩]) =
          some (.ok (acc ++ it.currentPage.drop it.currentIdx), itF, calls) := by
        rw [heq, hdrop]
        simp
      exact hres
    · have hhn : it.HasNext = false := by
        simp [Iterator.HasNext, hmore]
        omega
      rw [hhn]
      simp only [Bool.false_eq_true, if_false]
      refine ⟨it, ?_, hmore, by omega⟩
      rw [List.drop_eq_nil_of_le (by omega)]
      simp

/-- C8: when the single fetched page's response carries no pagination
object at all, iteration terminates after that one fetch: draining the
iterator returns exactly the page's items with exactly one network call,
the final iterator reports `HasNext = false`, and a further `Next`
returns the "no item" sentinel (no error) without another network
call. -/
theorem iterator_no_pagination_single_call (T : Type) (items : List T)
    (client : RequestClient T)
    (hscript : ∀ params, client 0 params = .ok ⟨items, none⟩)
    (path : String) (params0 : List (String × GoValue)) (fuel : Nat)
    (hfuel : items.length + 2 ≤ fuel) :
    ∃ itF : Iterator T,
      (NewIterator T path params0).ToSlice client fuel 0 =
        some (.ok items, itF, 1) ∧
      itF.HasNext = false ∧
      itF.Next client 1 = (.ok none, itF, 1) := by
  obtain ⟨f, rfl⟩ : ∃ k, fuel = k + 1 := ⟨fuel - 1, by omega⟩
  set it0 := NewIterator T path params0 with hit0
  have hpage0 : it0.currentPage = ([] : List T) := rfl
  have hidx0 : it0.currentIdx = 0 := rfl
  have hmore0 : it0.hasMore = true := rfl
  have hhn0 : it0.HasNext = true := by
    simp [Iterator.HasNext, hmore0]
  cases items with
  | nil =>
    have hfetch : it0.fetchNextPage client 0 =
        (none, { it0 with currentPage := [], currentIdx := 0, hasMore := false }, 1) := by
      unfold Iterator.fetchNextPage
      simp only [hscript]
    have hnext0 : it0.Next client 0 =
        (.ok none, { it0 with currentPage := [], currentIdx := 0, hasMore := false }, 1) := by
      unfold Iterator.Next
      rw [dif_neg (by simp [hpage0, hidx0])]
      rw [if_neg (by simp [hmore0])]
      rw [hfetch]
    refine ⟨{ it0 with currentPage := [], currentIdx := 0, hasMore := false },
      ?_, ?_, ?_⟩
    · unfold Iterator.ToSlice
      rw [Iterator.toSliceAux, hhn0, if_pos rfl, hnext0]
    · exact (exhausted_iterator_next _ client 1 rfl (by simp)).1
    · exact (exhausted_iterator_next _ client 1 rfl (by simp)).2
  | cons x xs =>
    have hfetch : it0.fetchNextPage client 0 =
        (none,
         { it0 with currentPage := x :: xs, currentIdx := 0, hasMore := false }, 1) := by
      unfold Iterator.fetchNextPage
      simp only [hscript]
    have hnext0 : it0.Next client 0 =
        (.ok (some x),
         { it0 with currentPage := x :: xs, currentIdx := 1, hasMore := false }, 1) := by
      unfold Iterator.Next
      rw [dif_neg (by simp [hpage0, hidx0])]
      rw [if_neg (by simp [hmore0])]
      rw [hfetch]
    obtain ⟨itF, hdrain, hF1, hF2⟩ := toSliceAux_drain client f
      { it0 with currentPage := x :: xs, currentIdx := 1, hasMore := false } 1 [x]
      rfl (by show (x :: xs).length - 1 + 1 ≤ f; simp only [List.length_cons] at hfuel ⊢; omega)
    refine ⟨itF, ?_, ?_, ?_⟩
    · unfold Iterator.ToSlice
      rw [Iterator.toSliceAux, hhn0, if_pos rfl, hnext0]
      exact hdrain
    · exact (exhausted_iterator_next itF client 1 hF1 hF2).1
    · exact (exhausted_iterator_next itF client 1 hF1 hF2).2

/-- Witness for C8: a scripted collaborator answering every request with
the page `[10, 20]` and no pagination object; with fuel 4 the iterator
drains to exactly those items after one network call. -/
theorem iterator_no_pagination_single_call_witness :
    ∃ itF : Iterator Nat,
      (NewIterator Nat "/p" []).ToSlice
          (fun _ _ => .ok ⟨[10, 20], none⟩) 4 0 =
        some (.ok [10, 20], itF, 1) ∧
      itF.HasNext = false ∧
      itF.Next (fun _ _ => .ok ⟨[10, 20], none⟩) 1 = (.ok none, itF, 1) :=
  iterator_no_pagination_single_call Nat [10, 20]
    (fun _ _ => .ok ⟨[10, 20], none⟩) (fun _ => rfl) "/p" [] 4 (by decide)

/-- The scripted collaborator of C9: three pages, the first two with
`has_more = true` and distinct cursors, the third with
`has_more = false`; any further request would fail visibly. -/
def threePageScript : RequestClient Nat := fun calls _params =>
  match calls with
  | 0 => .ok ⟨[1, 2], some ⟨some "c1", none, none, true⟩⟩
  | 1 => .ok ⟨[3, 4], some ⟨some "c2", none, none, true⟩⟩
  | 2 => .ok ⟨[5], some ⟨none, none, none, false⟩⟩
  | _ => .error (.apiConnectionError "unexpected request")

/-- C9: over the scripted three-page sequence (two `has_more = true` pages
with distinct cursors, then a final `has_more = false` page), `ToSlice`
returns the concatenation of the three pages' items in server order and
exactly three network calls occur, for every sufficient fuel bound on the
embedded loop. -/
theorem toSlice_three_pages (fuel : Nat) (hfuel : 6 ≤ fuel) :
    ∃ itF : Iterator Nat,
      (NewIterator Nat "/v0/search-messages" []).ToSlice threePageScript fuel 0 =
        some (.ok [1, 2, 3, 4, 5], itF, 3) := by
  have hbase :
      Iterator.toSliceAux threePageScript 6
        (NewIterator Nat "/v0/search-messages" []) 0 [] =
      some (.ok [1, 2, 3, 4, 5],
        { path := "/v0/search-messages", params := [], cursor := none,
          limit := some 0, direction := some "", hasMore := false,
          currentIdx := 1, currentPage := [5] }, 3) := rfl
  exact ⟨_, toSliceAux_mono threePageScript 6 fuel _ 0 [] _ hfuel hbase⟩

/-- Witness for C9 at the exact fuel bound 6. -/
theorem toSlice_three_pages_witness :
    ∃ itF : Iterator Nat,
      (NewIterator Nat "/v0/search-messages" []).ToSlice threePageScript 6 0 =
        some (.ok [1, 2, 3, 4, 5], itF, 3) :=
  toSlice_three_pages 6 (by decide)

end Beeper
